import Mathlib

/-!
Shallow embedding of the Orbit Simulator core (`OrbitSim.py`): the camera /
viewport transform and the gravitational N-body integrator.

Modelling conventions:
* Python floats are modelled as exact numbers: the camera arithmetic (pure
  field operations) over `ℚ`, the physics (which uses `sqrt`, `atan2`, `cos`,
  `sin`) over `ℝ`.
* Methods that mutate `self` are modelled as functions returning the updated
  object; the in-place update of the planet list in `main` is modelled as a
  left-to-right fold that replaces one list entry at a time.
* `math.hypot dx dy` is `Real.sqrt (dx^2 + dy^2)`; `math.atan2 y x` is the
  argument of the complex number `x + y*I`.
-/

namespace OrbitSim

/-- Constant `WIDTH` from the source: window width in pixels. -/
def WIDTH : ℚ := 1000

/-- Constant `HEIGHT` from the source: window height in pixels. -/
def HEIGHT : ℚ := 1000

/-- Constant `AU = 149597870.7 * 1000` (meters), as used by the camera (`ℚ` copy). -/
def AU : ℚ := 149597870.7 * 1000

/-- Constant `SCALE_FACTOR = 100 / AU`: initial scale, 100 pixels per AU. -/
def SCALE_FACTOR : ℚ := 100 / AU

/-- Constant `AU` again, as used by the physics (`ℝ` copy). -/
noncomputable def AUr : ℝ := 149597870.7 * 1000

/-- Constant `G = 6.67430e-11`: the gravitational constant. -/
noncomputable def G : ℝ := 6.67430e-11

/-- Constant `TIMESTEP = 3600 * 24`: one simulated day per integration step, seconds. -/
noncomputable def TIMESTEP : ℝ := 3600 * 24

/-- The `Camera` class: scale, pixel offset and transient drag state. -/
structure Camera where
  offset_x : ℚ
  offset_y : ℚ
  scale : ℚ
  dragging : Bool
  mouse_start : ℚ × ℚ
  offset_start : ℚ × ℚ
deriving DecidableEq

/-- Constructor `Camera.__init__`: offsets 0, scale `SCALE_FACTOR`, not dragging. -/
def Camera.init : Camera :=
  { offset_x := 0, offset_y := 0, scale := SCALE_FACTOR,
    dragging := false, mouse_start := (0, 0), offset_start := (0, 0) }

/-- Method `Camera.world_to_screen`:
`screen = world * scale + center - offset`, componentwise. -/
def world_to_screen (c : Camera) (x y : ℚ) : ℚ × ℚ :=
  (x * c.scale + WIDTH / 2 - c.offset_x, y * c.scale + HEIGHT / 2 - c.offset_y)

/-- Method `Camera.screen_to_world`:
`world = (screen + offset - center) / scale`, componentwise. -/
def screen_to_world (c : Camera) (x y : ℚ) : ℚ × ℚ :=
  ((x + c.offset_x - WIDTH / 2) / c.scale, (y + c.offset_y - HEIGHT / 2) / c.scale)

/-- Function `handle_zoom`: reads the world point under the mouse, multiplies the scale
by `zoom_factor`, recomputes the screen position of that world point with the
new scale but old offset, and adds `(mouse - new_screen)` to the offset.
The zoom factor is `1.1` for wheel-up events and `1/1.1` for wheel-down. -/
def handle_zoom (c : Camera) (zoom_factor : ℚ) (mouse : ℚ × ℚ) : Camera :=
  let w := screen_to_world c mouse.1 mouse.2
  let c1 : Camera := { c with scale := c.scale * zoom_factor }
  let ns := world_to_screen c1 w.1 w.2
  { c1 with offset_x := c1.offset_x + (mouse.1 - ns.1),
            offset_y := c1.offset_y + (mouse.2 - ns.2) }

/-- The `Planet` class: a point mass with position, velocity, rendering data,
an orbit trail, the sun flag and the cached distance to the sun. -/
structure Planet where
  name : String
  x : ℝ
  y : ℝ
  base_radius : ℕ
  color : ℕ × ℕ × ℕ
  mass : ℝ
  orbit : List (ℝ × ℝ)
  sun : Bool
  distance_to_sun : ℝ
  x_vel : ℝ
  y_vel : ℝ

/-- Constructor `Planet.__init__`: stores the given name, position, radius, color and mass,
and initialises `orbit = []`, `sun = False`, `distance_to_sun = 0.0`,
`x_vel = y_vel = 0.0`.  No validation of any argument is performed. -/
noncomputable def Planet.init (name : String) (x y : ℝ) (radius : ℕ)
    (color : ℕ × ℕ × ℕ) (mass : ℝ) : Planet :=
  { name := name, x := x, y := y, base_radius := radius, color := color,
    mass := mass, orbit := [], sun := false, distance_to_sun := 0,
    x_vel := 0, y_vel := 0 }

/-- Method `Planet.set_velocity`: sets the velocity fields (returns self for chaining). -/
noncomputable def Planet.set_velocity (p : Planet) (vx vy : ℝ) : Planet :=
  { p with x_vel := vx, y_vel := vy }

/-- Python `math.hypot dx dy = sqrt (dx^2 + dy^2)`. -/
noncomputable def hypot (dx dy : ℝ) : ℝ := Real.sqrt (dx ^ 2 + dy ^ 2)

/-- Python `math.atan2 y x`: the argument of the complex number `x + y*I`. -/
noncomputable def atan2 (y x : ℝ) : ℝ := Complex.arg ⟨x, y⟩

/-- Method `Planet.attraction`: gravitational force exerted by `other` on `self`.
Returns the updated `self` (the method mutates `self.distance_to_sun` when
`other.sun` holds and the distance is nonzero) together with `(fx, fy)`.
No field of `other` is ever assigned, so `other` is not returned. -/
noncomputable def Planet.attraction (self other : Planet) : Planet × ℝ × ℝ :=
  let dx := other.x - self.x
  let dy := other.y - self.y
  let distance := hypot dx dy
  if distance = 0 then (self, 0, 0)
  else
    let self' := if other.sun then { self with distance_to_sun := distance } else self
    let force := G * self.mass * other.mass / distance ^ 2
    let angle := atan2 dy dx
    (self', Real.cos angle * force, Real.sin angle * force)

/-- The force-accumulation loop of `Planet.update_position`: folds
`self.attraction` over the other planets, threading the (possibly mutated)
`self` and the running totals `total_fx`, `total_fy`. -/
noncomputable def accumForces : Planet → List Planet → ℝ → ℝ → Planet × ℝ × ℝ
  | s, [], fx, fy => (s, fx, fy)
  | s, p :: rest, fx, fy =>
    let r := s.attraction p
    accumForces r.1 rest (fx + r.2.1) (fy + r.2.2)

/-- The accumulated force `(total_fx, total_fy)` of `update_position`. -/
noncomputable def total_force (self : Planet) (others : List Planet) : ℝ × ℝ :=
  (accumForces self others 0 0).2

/-- The trail bookkeeping of `update_position`: `orbit.append((x, y))` followed
by `orbit.pop(0)` when the length exceeds 1000. -/
def pushTrail (orbit : List (ℝ × ℝ)) (p : ℝ × ℝ) : List (ℝ × ℝ) :=
  let o := orbit ++ [p]
  if o.length > 1000 then o.tail else o

/-- Method `Planet.update_position`: the sun returns unchanged; otherwise the forces
from `others` (the planet list with `self` removed, mirroring the
`planet is self: continue` identity check) are accumulated, the velocity is
updated first, the position is updated from the new velocity, and the new
position is appended to the trail. -/
noncomputable def Planet.update_position (self : Planet) (others : List Planet) : Planet :=
  if self.sun then self
  else
    let acc := accumForces self others 0 0
    let s := acc.1
    let vx := s.x_vel + acc.2.1 / s.mass * TIMESTEP
    let vy := s.y_vel + acc.2.2 / s.mass * TIMESTEP
    let nx := s.x + vx * TIMESTEP
    let ny := s.y + vy * TIMESTEP
    { s with x := nx, y := ny, x_vel := vx, y_vel := vy,
             orbit := pushTrail s.orbit (nx, ny) }

/-- One iteration of the `for planet in planets: planet.update_position(planets)`
loop in `main`: replace entry `i` of the current list by its update, computed
against the current (partially updated) list with entry `i` removed. -/
noncomputable def stepOne (ps : List Planet) (i : ℕ) : List Planet :=
  match ps[i]? with
  | none => ps
  | some p => ps.set i (p.update_position (ps.eraseIdx i))

/-- The first `i` iterations of the update loop of `main`. -/
noncomputable def stepUpto (ps : List Planet) (i : ℕ) : List Planet :=
  List.foldl stepOne ps (List.range i)

/-- One full integration step: the whole
`for planet in planets: planet.update_position(planets)` loop of `main`,
updating the list in place, left to right. -/
noncomputable def stepBodies (ps : List Planet) : List Planet :=
  stepUpto ps ps.length

/-- Modelled from the spec (refinement comparator, not the source): the
compute-then-commit step in which every body's forces are computed from a
read-only snapshot of the start-of-step list. -/
noncomputable def snapshotStep (ps : List Planet) : List Planet :=
  ps.mapIdx fun i p => p.update_position (ps.eraseIdx i)

/-- Position of body `i` (for stating theorems about steps). -/
noncomputable def posAt (ps : List Planet) (i : ℕ) : ℝ × ℝ :=
  match ps[i]? with
  | some p => (p.x, p.y)
  | none => (0, 0)

/-- Trail of body `i` (for stating theorems about steps). -/
def trailAt (ps : List Planet) (i : ℕ) : List (ℝ × ℝ) :=
  match ps[i]? with
  | some p => p.orbit
  | none => []

/-- Demo body: unit mass at the origin, moving right at 1 m/s. -/
noncomputable def mover : Planet :=
  { name := "A", x := 0, y := 0, base_radius := 1, color := (255, 0, 0),
    mass := 1, orbit := [], sun := false, distance_to_sun := 0,
    x_vel := 1, y_vel := 0 }

/-- Demo body: unit mass resting at the origin. -/
noncomputable def rester : Planet :=
  { name := "B", x := 0, y := 0, base_radius := 1, color := (0, 0, 255),
    mass := 1, orbit := [], sun := false, distance_to_sun := 0,
    x_vel := 0, y_vel := 0 }

/-- Body `mover` after one update against `[rester]` (zero force, coincident). -/
noncomputable def moverStepped : Planet :=
  { name := "A", x := 86400, y := 0, base_radius := 1, color := (255, 0, 0),
    mass := 1, orbit := [(86400, 0)], sun := false, distance_to_sun := 0,
    x_vel := 1, y_vel := 0 }

/-- Demo list for the order-dependence counterexample. -/
noncomputable def demoPair : List Planet := [mover, rester]

/-- Demo anchored body. -/
noncomputable def demoSun : Planet :=
  { name := "Sun", x := 0, y := 0, base_radius := 16, color := (255, 255, 0),
    mass := 1.98892e30, orbit := [], sun := true, distance_to_sun := 0,
    x_vel := 0, y_vel := 0 }

/-- Demo body coincident with `demoSun` carrying a stale `distance_to_sun`. -/
noncomputable def probe : Planet :=
  { name := "P", x := 0, y := 0, base_radius := 4, color := (169, 169, 169),
    mass := 1, orbit := [], sun := false, distance_to_sun := 5,
    x_vel := 0, y_vel := 0 }

/-- Demo body at distance 5 from `demoSun`. -/
noncomputable def probeFar : Planet :=
  { name := "Q", x := 3, y := 4, base_radius := 4, color := (169, 169, 169),
    mass := 1, orbit := [], sun := false, distance_to_sun := 0,
    x_vel := 0, y_vel := 0 }

/-- Relation stating `b` agrees with `a` on every field except possibly `distance_to_sun`. -/
def agreesExceptDist (a b : Planet) : Prop :=
  b.name = a.name ∧ b.x = a.x ∧ b.y = a.y ∧ b.base_radius = a.base_radius ∧
  b.color = a.color ∧ b.mass = a.mass ∧ b.orbit = a.orbit ∧ b.sun = a.sun ∧
  b.x_vel = a.x_vel ∧ b.y_vel = a.y_vel

lemma agreesExceptDist_refl (a : Planet) : agreesExceptDist a a := by
  unfold agreesExceptDist; exact ⟨rfl, rfl, rfl, rfl, rfl, rfl, rfl, rfl, rfl, rfl⟩

lemma agreesExceptDist_trans {a b c : Planet}
    (h1 : agreesExceptDist a b) (h2 : agreesExceptDist b c) : agreesExceptDist a c := by
  obtain ⟨n1, x1, y1, r1, c1, m1, o1, s1, vx1, vy1⟩ := h1
  obtain ⟨n2, x2, y2, r2, c2, m2, o2, s2, vx2, vy2⟩ := h2
  exact ⟨n2.trans n1, x2.trans x1, y2.trans y1, r2.trans r1, c2.trans c1,
    m2.trans m1, o2.trans o1, s2.trans s1, vx2.trans vx1, vy2.trans vy1⟩

lemma hypot_eq_zero_iff (dx dy : ℝ) : hypot dx dy = 0 ↔ dx = 0 ∧ dy = 0 := by
  unfold hypot
  rw [Real.sqrt_eq_zero (by positivity)]
  constructor
  · intro h
    have h1 : dx ^ 2 = 0 := by nlinarith [sq_nonneg dx, sq_nonneg dy]
    have h2 : dy ^ 2 = 0 := by nlinarith [sq_nonneg dx, sq_nonneg dy]
    exact ⟨pow_eq_zero_iff two_ne_zero |>.mp h1, pow_eq_zero_iff two_ne_zero |>.mp h2⟩
  · rintro ⟨h1, h2⟩
    simp [h1, h2]

/-- Fact: `attraction` at coincident positions: the degenerate guard returns
`(self, 0, 0)` before any `distance_to_sun` update. -/
lemma attraction_of_coincident {a b : Planet} (hx : a.x = b.x) (hy : a.y = b.y) :
    a.attraction b = (a, 0, 0) := by
  unfold Planet.attraction
  rw [if_pos]
  rw [hx, hy, sub_self, sub_self]
  exact (hypot_eq_zero_iff 0 0).mpr ⟨rfl, rfl⟩

/-- The first component of `attraction` is `self`, possibly with
`distance_to_sun` overwritten by the computed distance. -/
lemma attraction_fst (a b : Planet) :
    (a.attraction b).1 = a ∨
      (a.attraction b).1 = { a with distance_to_sun := hypot (b.x - a.x) (b.y - a.y) } := by
  unfold Planet.attraction
  dsimp only
  split
  · left; rfl
  · split
    · right; rfl
    · left; rfl

lemma attraction_agrees (a b : Planet) : agreesExceptDist a (a.attraction b).1 := by
  rcases attraction_fst a b with h | h <;> rw [h]
  · exact agreesExceptDist_refl a
  · unfold agreesExceptDist
    exact ⟨rfl, rfl, rfl, rfl, rfl, rfl, rfl, rfl, rfl, rfl⟩

/-- Fact: `attraction` with the anchor at nonzero distance records the distance. -/
lemma attraction_anchor_dist {a b : Planet} (hb : b.sun = true)
    (hne : ¬(a.x = b.x ∧ a.y = b.y)) :
    ((a.attraction b).1).distance_to_sun = hypot (b.x - a.x) (b.y - a.y) := by
  unfold Planet.attraction
  dsimp only
  rw [if_neg, if_pos hb]
  intro h
  rcases (hypot_eq_zero_iff _ _).mp h with ⟨h1, h2⟩
  exact hne ⟨by linarith [sub_eq_zero.mp h1], by linarith [sub_eq_zero.mp h2]⟩

lemma accumForces_agrees (l : List Planet) :
    ∀ (s : Planet) (fx fy : ℝ), agreesExceptDist s (accumForces s l fx fy).1 := by
  induction l with
  | nil => intro s fx fy; exact agreesExceptDist_refl s
  | cons p rest ih =>
    intro s fx fy
    unfold accumForces
    exact agreesExceptDist_trans (attraction_agrees s p) (ih _ _ _)

lemma update_position_of_sun {self : Planet} (o : List Planet) (h : self.sun = true) :
    self.update_position o = self := by
  simp [Planet.update_position, h]

/-- The full shape of `update_position` for a non-anchored body: velocity is
updated first from the accumulated force, the position uses the already
updated velocity, the new position is pushed onto the trail, and all other
fields are preserved. -/
lemma update_position_spec {self : Planet} (o : List Planet) (h : self.sun = false) :
    (self.update_position o).x_vel = self.x_vel + (total_force self o).1 / self.mass * TIMESTEP ∧
    (self.update_position o).y_vel = self.y_vel + (total_force self o).2 / self.mass * TIMESTEP ∧
    (self.update_position o).x = self.x + (self.update_position o).x_vel * TIMESTEP ∧
    (self.update_position o).y = self.y + (self.update_position o).y_vel * TIMESTEP ∧
    (self.update_position o).orbit =
      pushTrail self.orbit ((self.update_position o).x, (self.update_position o).y) ∧
    (self.update_position o).sun = false ∧
    (self.update_position o).name = self.name ∧
    (self.update_position o).mass = self.mass ∧
    (self.update_position o).base_radius = self.base_radius ∧
    (self.update_position o).color = self.color := by
  obtain ⟨hn, hx, hy, hr, hc, hm, ho, hs, hvx, hvy⟩ := accumForces_agrees o self 0 0
  unfold Planet.update_position total_force
  rw [if_neg (by simp [h])]
  dsimp only
  rw [hn, hx, hy, hr, hc, hm, ho, hvx, hvy]
  rw [hs, h]
  exact ⟨rfl, rfl, rfl, rfl, rfl, rfl, rfl, rfl, rfl, rfl⟩

lemma stepOne_length (ps : List Planet) (i : ℕ) : (stepOne ps i).length = ps.length := by
  unfold stepOne
  split
  · rfl
  · simp

lemma stepOne_getElem_ne (ps : List Planet) {i j : ℕ} (h : j ≠ i) :
    (stepOne ps i)[j]? = ps[j]? := by
  unfold stepOne
  split
  · rfl
  · exact List.getElem?_set_ne (Ne.symm h)

lemma stepOne_getElem_self {ps : List Planet} {i : ℕ} {p : Planet} (hp : ps[i]? = some p) :
    (stepOne ps i)[i]? = some (p.update_position (ps.eraseIdx i)) := by
  have hlen : i < ps.length := (List.getElem?_eq_some.mp hp).1
  unfold stepOne
  rw [hp]
  exact List.getElem?_set_eq_of_lt _ hlen

lemma stepUpto_zero (ps : List Planet) : stepUpto ps 0 = ps := rfl

lemma stepUpto_succ (ps : List Planet) (i : ℕ) :
    stepUpto ps (i + 1) = stepOne (stepUpto ps i) i := by
  unfold stepUpto
  rw [List.range_succ, List.foldl_append]
  rfl

lemma stepUpto_length (ps : List Planet) (i : ℕ) : (stepUpto ps i).length = ps.length := by
  induction i with
  | zero => rfl
  | succ k ih => rw [stepUpto_succ, stepOne_length, ih]

/-- Entries not yet reached by the loop still hold their start-of-step value. -/
lemma stepUpto_getElem_ge (ps : List Planet) {i j : ℕ} (h : i ≤ j) :
    (stepUpto ps i)[j]? = ps[j]? := by
  induction i with
  | zero => rfl
  | succ k ih =>
    rw [stepUpto_succ, stepOne_getElem_ne _ (by omega), ih (by omega)]

/-- Entries already updated by the loop are never touched again. -/
lemma stepUpto_getElem_lt (ps : List Planet) {i k : ℕ} (h : i + 1 ≤ k) :
    (stepUpto ps k)[i]? = (stepUpto ps (i + 1))[i]? := by
  induction k, h using Nat.le_induction with
  | base => rfl
  | succ m hm ih =>
    rw [stepUpto_succ, stepOne_getElem_ne _ (by omega), ih]

/-- Characterisation of one full step at index `i`: entry `i` of the result is
its start-of-step value updated against the current list after the entries
before `i` have already been updated. -/
lemma stepBodies_getElem {ps : List Planet} {i : ℕ} {p : Planet} (hp : ps[i]? = some p) :
    (stepBodies ps)[i]? = some (p.update_position ((stepUpto ps i).eraseIdx i)) := by
  have hlen : i < ps.length := (List.getElem?_eq_some.mp hp).1
  unfold stepBodies
  rw [stepUpto_getElem_lt ps (by omega), stepUpto_succ]
  have h2 : (stepUpto ps i)[i]? = some p := by
    rw [stepUpto_getElem_ge ps (le_refl i)]; exact hp
  exact stepOne_getElem_self h2

lemma stepBodies_length (ps : List Planet) : (stepBodies ps).length = ps.length := by
  unfold stepBodies
  exact stepUpto_length ps ps.length

lemma stepBodies_anchored {ps : List Planet} {i : ℕ} {p : Planet}
    (hp : ps[i]? = some p) (hs : p.sun = true) : (stepBodies ps)[i]? = some p := by
  rw [stepBodies_getElem hp, update_position_of_sun _ hs]

lemma iterate_stepBodies_anchored {ps : List Planet} {i : ℕ} {p : Planet}
    (hp : ps[i]? = some p) (hs : p.sun = true) (n : ℕ) :
    (stepBodies^[n] ps)[i]? = some p := by
  induction n with
  | zero => simpa using hp
  | succ m ih =>
    rw [Function.iterate_succ_apply']
    exact stepBodies_anchored ih hs

/-- One step of a non-anchored body: the entry stays non-anchored and its new
trail is its old trail with the new position pushed. -/
lemma stepBodies_nonsun {ps : List Planet} {i : ℕ} {p : Planet}
    (hp : ps[i]? = some p) (hs : p.sun = false) :
    ∃ r, (stepBodies ps)[i]? = some r ∧ r.sun = false ∧
      r.orbit = pushTrail p.orbit (r.x, r.y) := by
  refine ⟨p.update_position ((stepUpto ps i).eraseIdx i), stepBodies_getElem hp, ?_, ?_⟩
  · exact (update_position_spec _ hs).2.2.2.2.2.1
  · exact (update_position_spec _ hs).2.2.2.2.1

/-- After `n` steps, a non-anchored body's trail is the fold of `pushTrail`
over the positions it held after each of the `n` steps. -/
lemma trail_evolution {ps : List Planet} {i : ℕ} {p : Planet}
    (hp : ps[i]? = some p) (hs : p.sun = false) (n : ℕ) :
    ∃ q, (stepBodies^[n] ps)[i]? = some q ∧ q.sun = false ∧
      q.orbit = List.foldl pushTrail p.orbit
        ((List.range n).map fun k => posAt (stepBodies^[k + 1] ps) i) := by
  induction n with
  | zero => exact ⟨p, by simpa using hp, hs, by simp⟩
  | succ m ih =>
    obtain ⟨q, hq, hqs, hqorb⟩ := ih
    obtain ⟨r, hr, hrs, hrorb⟩ := stepBodies_nonsun hq hqs
    have hiter : (stepBodies^[m + 1] ps) = stepBodies (stepBodies^[m] ps) :=
      Function.iterate_succ_apply' stepBodies m ps
    have hpos : posAt (stepBodies^[m + 1] ps) i = (r.x, r.y) := by
      unfold posAt
      rw [hiter, hr]
    refine ⟨r, by rw [hiter]; exact hr, hrs, ?_⟩
    rw [List.range_succ, List.map_append, List.foldl_append]
    simp only [List.map_cons, List.map_nil, List.foldl_cons, List.foldl_nil]
    rw [← hqorb, hpos]
    exact hrorb

lemma pushTrail_of_gt {o : List (ℝ × ℝ)} {p : ℝ × ℝ} (h : (o ++ [p]).length > 1000) :
    pushTrail o p = (o ++ [p]).tail := by
  simp only [pushTrail]
  rw [if_pos h]

lemma pushTrail_of_ngt {o : List (ℝ × ℝ)} {p : ℝ × ℝ} (h : ¬(o ++ [p]).length > 1000) :
    pushTrail o p = o ++ [p] := by
  simp only [pushTrail]
  rw [if_neg h]

/-- Folding `pushTrail` from the empty trail keeps the most recent 1000
points, in order: the result is `L.drop (L.length - 1000)`. -/
lemma foldl_pushTrail (L : List (ℝ × ℝ)) :
    (List.foldl pushTrail ([] : List (ℝ × ℝ)) L).length = min L.length 1000 ∧
    List.foldl pushTrail ([] : List (ℝ × ℝ)) L = L.drop (L.length - 1000) := by
  induction L using List.reverseRecOn with
  | nil => simp
  | append_singleton M a ih =>
    obtain ⟨ihlen, iheq⟩ := ih
    rw [List.foldl_append]
    simp only [List.foldl_cons, List.foldl_nil]
    have hl : (M ++ [a]).length = M.length + 1 := by
      simp
    by_cases hM : 1000 ≤ M.length
    · have hlen1000 : (List.foldl pushTrail [] M).length = 1000 := by rw [ihlen]; omega
      have hne : List.foldl pushTrail ([] : List (ℝ × ℝ)) M ≠ [] := by
        intro hcon
        rw [hcon] at hlen1000
        simp at hlen1000
      have hcap : (List.foldl pushTrail ([] : List (ℝ × ℝ)) M ++ [a]).length > 1000 := by
        rw [List.length_append, hlen1000]
        simp
      rw [pushTrail_of_gt hcap, List.tail_append_of_ne_nil hne, iheq, List.tail_drop]
      constructor
      · simp only [List.length_append, List.length_drop, List.length_singleton, hl]
        omega
      · have hidx : M.length - 1000 + 1 = (M ++ [a]).length - 1000 := by rw [hl]; omega
        have h2 : (M ++ [a]).length - 1000 ≤ M.length := by rw [hl]; omega
        rw [hidx, List.drop_append_of_le_length h2]
    · have hcap : ¬((List.foldl pushTrail ([] : List (ℝ × ℝ)) M ++ [a]).length > 1000) := by
        rw [List.length_append, ihlen]
        simp only [List.length_singleton]
        omega
      rw [pushTrail_of_ngt hcap, iheq]
      have h0 : M.length - 1000 = 0 := by omega
      have h0' : (M ++ [a]).length - 1000 = 0 := by rw [hl]; omega
      rw [h0, h0', List.drop_zero, List.drop_zero]
      constructor
      · simp only [List.length_append, List.length_drop, List.length_singleton, hl, h0]
        omega
      · rfl

lemma hypot_86400 : hypot 86400 0 = 86400 := by
  unfold hypot
  rw [show ((86400 : ℝ) ^ 2 + 0 ^ 2) = 86400 ^ 2 by norm_num,
    Real.sqrt_sq (by norm_num)]

lemma atan2_zero_pos : atan2 0 86400 = 0 := by
  unfold atan2
  exact Complex.arg_ofReal_of_nonneg (by norm_num)

lemma mover_step : mover.update_position [rester] = moverStepped := by
  have hatt : mover.attraction rester = (mover, 0, 0) := attraction_of_coincident rfl rfl
  unfold Planet.update_position
  rw [if_neg (by simp [mover])]
  simp only [accumForces, hatt]
  unfold mover moverStepped TIMESTEP pushTrail
  norm_num

lemma rester_attraction_moverStepped :
    rester.attraction moverStepped = (rester, G * 1 * 1 / 86400 ^ 2, 0) := by
  unfold Planet.attraction
  dsimp only
  rw [show moverStepped.x - rester.x = (86400 : ℝ) by simp [moverStepped, rester],
    show moverStepped.y - rester.y = (0 : ℝ) by simp [moverStepped, rester],
    hypot_86400, atan2_zero_pos]
  rw [if_neg (by norm_num), if_neg (by simp [moverStepped])]
  simp [rester, moverStepped, Real.cos_zero, Real.sin_zero]

lemma rester_step_pos :
    (rester.update_position [moverStepped]).x = G ∧
      (rester.update_position [moverStepped]).y = 0 := by
  unfold Planet.update_position
  rw [if_neg (by simp [rester])]
  simp only [accumForces, rester_attraction_moverStepped]
  unfold rester TIMESTEP G
  norm_num

lemma rester_snapshot_pos :
    (rester.update_position [mover]).x = 0 ∧ (rester.update_position [mover]).y = 0 := by
  have hatt : rester.attraction mover = (rester, 0, 0) := attraction_of_coincident rfl rfl
  unfold Planet.update_position
  rw [if_neg (by simp [rester])]
  simp only [accumForces, hatt]
  unfold rester TIMESTEP
  norm_num

lemma stepOne_demoPair_zero : stepOne demoPair 0 = [moverStepped, rester] := by
  have h0 : demoPair[0]? = some mover := rfl
  simp only [stepOne, h0]
  have he : demoPair.eraseIdx 0 = [rester] := rfl
  rw [he, mover_step]
  rfl

lemma stepBodies_demoPair_pos :
    posAt (stepBodies demoPair) 1 =
      ((rester.update_position [moverStepped]).x,
        (rester.update_position [moverStepped]).y) := by
  unfold stepBodies
  rw [show demoPair.length = 2 from rfl, stepUpto_succ, stepUpto_succ, stepUpto_zero,
    stepOne_demoPair_zero]
  have h1 : ([moverStepped, rester] : List Planet)[1]? = some rester := rfl
  simp only [stepOne, h1]
  have he : ([moverStepped, rester] : List Planet).eraseIdx 1 = [moverStepped] := rfl
  rw [he]
  rfl

lemma snapshotStep_demoPair_pos :
    posAt (snapshotStep demoPair) 1 =
      ((rester.update_position [mover]).x, (rester.update_position [mover]).y) := rfl

/-- C1: the zoom anchor invariant fails on the code: zooming at screen point
`(600, 500)` with the wheel-up factor `1.1` from the initial camera changes
the world coordinate under the cursor (the offset correction in `handle_zoom`
has the wrong sign for this screen-transform convention). -/
theorem zoom_anchor_violated :
    screen_to_world (handle_zoom Camera.init (11 / 10) (600, 500)) 600 500 ≠
      screen_to_world Camera.init 600 500 := by
  unfold handle_zoom Camera.init screen_to_world world_to_screen SCALE_FACTOR AU WIDTH HEIGHT
  norm_num [Prod.ext_iff]

/-- C2: at any camera state with nonzero scale, `world_to_screen` applied to
`screen_to_world (sx, sy)` returns exactly `(sx, sy)`. -/
theorem transform_inverse (c : Camera) (h : c.scale ≠ 0) (sx sy : ℚ) :
    world_to_screen c (screen_to_world c sx sy).1 (screen_to_world c sx sy).2 = (sx, sy) := by
  unfold world_to_screen screen_to_world
  field_simp
  constructor <;> ring

/-- C2 witness: the inverse law at the initial camera and screen point `(600, 500)`. -/
theorem transform_inverse_witness :
    Camera.init.scale ≠ 0 ∧
      world_to_screen Camera.init (screen_to_world Camera.init 600 500).1
        (screen_to_world Camera.init 600 500).2 = (600, 500) :=
  ⟨by norm_num [Camera.init, SCALE_FACTOR, AU],
    transform_inverse Camera.init (by norm_num [Camera.init, SCALE_FACTOR, AU]) 600 500⟩

/-- C3: a body whose `sun` flag is set is never changed by the integrator:
after any number of full integration steps over any body list, its entry
(position, velocity, trail and all other fields) is exactly the original. -/
theorem anchored_body_never_changes {ps : List Planet} {i : ℕ} {p : Planet}
    (hp : ps[i]? = some p) (hs : p.sun = true) (n : ℕ) :
    (stepBodies^[n] ps)[i]? = some p :=
  iterate_stepBodies_anchored hp hs n

/-- C3 witness: the demo sun in a two-body list after 3 steps. -/
theorem anchored_body_never_changes_witness :
    ([demoSun, probeFar] : List Planet)[0]? = some demoSun ∧ demoSun.sun = true ∧
      (stepBodies^[3] [demoSun, probeFar])[0]? = some demoSun :=
  ⟨rfl, rfl, anchored_body_never_changes rfl rfl 3⟩

/-- C4: one integration step of a non-anchored body is semi-implicit Euler:
velocity is updated first from the accumulated force over the other bodies,
then the position is updated using the already-updated velocity, with the
time step `TIMESTEP = 3600 * 24 = 86400` seconds. -/
theorem update_position_semi_implicit {self : Planet} (others : List Planet)
    (h : self.sun = false) :
    (self.update_position others).x_vel =
        self.x_vel + (total_force self others).1 / self.mass * TIMESTEP ∧
      (self.update_position others).y_vel =
        self.y_vel + (total_force self others).2 / self.mass * TIMESTEP ∧
      (self.update_position others).x =
        self.x + (self.update_position others).x_vel * TIMESTEP ∧
      (self.update_position others).y =
        self.y + (self.update_position others).y_vel * TIMESTEP ∧
      TIMESTEP = 86400 := by
  have h5 := update_position_spec others h
  exact ⟨h5.1, h5.2.1, h5.2.2.1, h5.2.2.2.1, by unfold TIMESTEP; norm_num⟩

/-- C4 witness: the semi-implicit update shape at a concrete body. -/
theorem update_position_semi_implicit_witness :
    probeFar.sun = false ∧
      ((probeFar.update_position [demoSun]).x_vel =
          probeFar.x_vel + (total_force probeFar [demoSun]).1 / probeFar.mass * TIMESTEP ∧
        (probeFar.update_position [demoSun]).y_vel =
          probeFar.y_vel + (total_force probeFar [demoSun]).2 / probeFar.mass * TIMESTEP ∧
        (probeFar.update_position [demoSun]).x =
          probeFar.x + (probeFar.update_position [demoSun]).x_vel * TIMESTEP ∧
        (probeFar.update_position [demoSun]).y =
          probeFar.y + (probeFar.update_position [demoSun]).y_vel * TIMESTEP ∧
        TIMESTEP = 86400) :=
  ⟨rfl, update_position_semi_implicit [demoSun] rfl⟩

/-- C5 counterexample: the in-place loop is not snapshot semantics.  With two
coincident unit-mass bodies, the first moving, the sequential step moves the
second body (the first body's position update changes the force computed for
the second in the same step), while the snapshot step leaves it in place. -/
theorem step_differs_from_snapshot : stepBodies demoPair ≠ snapshotStep demoPair := by
  intro h
  have h1 : posAt (stepBodies demoPair) 1 = posAt (snapshotStep demoPair) 1 := by rw [h]
  rw [stepBodies_demoPair_pos, snapshotStep_demoPair_pos, rester_step_pos.1,
    rester_step_pos.2, rester_snapshot_pos.1, rester_snapshot_pos.2, Prod.mk.injEq] at h1
  exact absurd h1.1 (by unfold G; norm_num)

/-- C5 amended: the step is sequential in list order: the force for body `i`
is computed against the current list, in which bodies before `i` have already
been updated this step (`stepUpto ps i`) while body `i` itself still holds
its start-of-step value. -/
theorem step_reads_updated_predecessors {ps : List Planet} {i : ℕ} {p : Planet}
    (hp : ps[i]? = some p) :
    (stepBodies ps)[i]? = some (p.update_position ((stepUpto ps i).eraseIdx i)) ∧
      (stepUpto ps i)[i]? = ps[i]? :=
  ⟨stepBodies_getElem hp, stepUpto_getElem_ge ps (le_refl i)⟩

/-- C5 amended witness: the sequential characterisation at the demo pair. -/
theorem step_reads_updated_predecessors_witness :
    demoPair[1]? = some rester ∧
      ((stepBodies demoPair)[1]? =
          some (rester.update_position ((stepUpto demoPair 1).eraseIdx 1)) ∧
        (stepUpto demoPair 1)[1]? = demoPair[1]?) :=
  ⟨rfl, step_reads_updated_predecessors rfl⟩

/-- C6: after `n > 1000` integration steps, a non-anchored body that started
with an empty trail has a trail of length exactly 1000, equal to its most
recent 1000 recorded post-step positions in chronological order (FIFO
eviction of the oldest). -/
theorem trail_bound {ps : List Planet} {i : ℕ} {p : Planet}
    (hp : ps[i]? = some p) (hs : p.sun = false) (horb : p.orbit = [])
    {n : ℕ} (hn : n > 1000) :
    (trailAt (stepBodies^[n] ps) i).length = 1000 ∧
      trailAt (stepBodies^[n] ps) i =
        ((List.range n).map fun k => posAt (stepBodies^[k + 1] ps) i).drop (n - 1000) := by
  obtain ⟨q, hq, hqs, hqorb⟩ := trail_evolution hp hs n
  have htr : trailAt (stepBodies^[n] ps) i = q.orbit := by
    unfold trailAt
    rw [hq]
  rw [horb] at hqorb
  have hfold := foldl_pushTrail ((List.range n).map fun k => posAt (stepBodies^[k + 1] ps) i)
  have hlen : ((List.range n).map fun k => posAt (stepBodies^[k + 1] ps) i).length = n := by
    simp
  rw [hlen] at hfold
  rw [htr, hqorb]
  exact ⟨by rw [hfold.1]; omega, hfold.2⟩

/-- C6 witness: a single free body stepped 1001 times. -/
theorem trail_bound_witness :
    ([probeFar] : List Planet)[0]? = some probeFar ∧ probeFar.sun = false ∧
      probeFar.orbit = [] ∧ (1001 : ℕ) > 1000 ∧
      ((trailAt (stepBodies^[1001] [probeFar]) 0).length = 1000 ∧
        trailAt (stepBodies^[1001] [probeFar]) 0 =
          ((List.range 1001).map fun k =>
            posAt (stepBodies^[k + 1] [probeFar]) 0).drop (1001 - 1000)) :=
  ⟨rfl, rfl, rfl, by norm_num, trail_bound rfl rfl rfl (by norm_num)⟩

/-- C7: at distance exactly 0 (coincident positions), `attraction` returns the
force `(0, 0)` through the degenerate-case guard, before the division and
before any `distance_to_sun` update: the caller is returned unchanged. -/
theorem attraction_zero_distance {a b : Planet} (hx : a.x = b.x) (hy : a.y = b.y) :
    a.attraction b = (a, 0, 0) :=
  attraction_of_coincident hx hy

/-- C7 witness: a body coincident with the demo sun. -/
theorem attraction_zero_distance_witness :
    probe.x = demoSun.x ∧ probe.y = demoSun.y ∧
      probe.attraction demoSun = (probe, 0, 0) :=
  ⟨rfl, rfl, attraction_zero_distance rfl rfl⟩

/-- C8 counterexample: a call with the anchor at distance 0 does not set
`distance_to_sun` to the Euclidean distance: the degenerate guard returns
first, and the stale value 5 survives while the distance is 0. -/
theorem attraction_anchor_coincident_not_set :
    ((probe.attraction demoSun).1).distance_to_sun ≠
      hypot (demoSun.x - probe.x) (demoSun.y - probe.y) := by
  rw [@attraction_of_coincident probe demoSun rfl rfl]
  have h : hypot (demoSun.x - probe.x) (demoSun.y - probe.y) = 0 := by
    rw [show demoSun.x - probe.x = (0 : ℝ) by simp [demoSun, probe],
      show demoSun.y - probe.y = (0 : ℝ) by simp [demoSun, probe]]
    exact (hypot_eq_zero_iff 0 0).mpr ⟨rfl, rfl⟩
  rw [h]
  simp only [probe]
  norm_num

/-- C8 amended: for every call `attraction a b` in which `b` is the anchor and
the distance is nonzero (the positions differ), the call sets the caller's
`distance_to_sun` to the Euclidean distance between the two positions. -/
theorem attraction_anchor_records_distance {a b : Planet} (hb : b.sun = true)
    (hne : ¬(a.x = b.x ∧ a.y = b.y)) :
    ((a.attraction b).1).distance_to_sun = hypot (b.x - a.x) (b.y - a.y) :=
  attraction_anchor_dist hb hne

/-- C8 amended witness: a body at distance 5 from the demo sun. -/
theorem attraction_anchor_records_distance_witness :
    demoSun.sun = true ∧ ¬(probeFar.x = demoSun.x ∧ probeFar.y = demoSun.y) ∧
      ((probeFar.attraction demoSun).1).distance_to_sun =
        hypot (demoSun.x - probeFar.x) (demoSun.y - probeFar.y) :=
  ⟨rfl, by norm_num [probeFar, demoSun],
    attraction_anchor_records_distance rfl (by norm_num [probeFar, demoSun])⟩

/-- C9 counterexample: construction with the non-positive mass `-1` is not
rejected: `Planet.__init__` succeeds and returns a fully formed body carrying
that mass (there is no construction-time validation in the code). -/
theorem init_accepts_nonpositive_mass :
    (Planet.init "X" 0 0 1 (0, 0, 0) (-1)).mass = -1 ∧
      (Planet.init "X" 0 0 1 (0, 0, 0) (-1)).sun = false ∧
      (Planet.init "X" 0 0 1 (0, 0, 0) (-1)).orbit = [] := by
  unfold Planet.init
  norm_num

/-- C9 amended: `Planet.__init__` performs no mass validation: for every mass
value, including non-positive ones, construction succeeds and stores the mass
unchanged, with the standard initial fields. -/
theorem init_no_mass_validation (name : String) (x y : ℝ) (radius : ℕ)
    (color : ℕ × ℕ × ℕ) (mass : ℝ) :
    (Planet.init name x y radius color mass).mass = mass ∧
      (Planet.init name x y radius color mass).orbit = [] ∧
      (Planet.init name x y radius color mass).sun = false ∧
      (Planet.init name x y radius color mass).x_vel = 0 ∧
      (Planet.init name x y radius color mass).y_vel = 0 := by
  unfold Planet.init
  exact ⟨rfl, rfl, rfl, rfl, rfl⟩

/-- C10: a force computation never mutates any field of the calling body other
than `distance_to_sun` (position, velocity, mass, trail and flags are all
unchanged); the argument body is only read, never written, which the embedding
reflects by returning no updated `other` at all. -/
theorem attraction_frame (a b : Planet) :
    ((a.attraction b).1).name = a.name ∧ ((a.attraction b).1).x = a.x ∧
      ((a.attraction b).1).y = a.y ∧
      ((a.attraction b).1).base_radius = a.base_radius ∧
      ((a.attraction b).1).color = a.color ∧ ((a.attraction b).1).mass = a.mass ∧
      ((a.attraction b).1).orbit = a.orbit ∧ ((a.attraction b).1).sun = a.sun ∧
      ((a.attraction b).1).x_vel = a.x_vel ∧ ((a.attraction b).1).y_vel = a.y_vel :=
  attraction_agrees a b

end OrbitSim
